import Mathlib

/-!
Verification of the text-analysis tutorial notebook
(`notebooks/text_analysis_tutorial/text_analysis_tutorial_unrun.ipynb`).

Each cell of the notebook that the claims refer to is shallowly embedded
below: pure loops become Lean functions, calls into third-party libraries
(spaCy, gensim, scikit-learn, Keras) are either abstracted as function
parameters or represented symbolically by their documented data flow, and
fallible operations (file reads, weight loading) return `Except`.
-/

/-- A spaCy token as the notebook consumes it: surface `text`, the
`is_stop`/`is_punct`/`like_num` flags, and its lemma (spaCy's `lemma_`). -/
structure Token where
  text : String
  is_stop : Bool
  is_punct : Bool
  like_num : Bool
  lemma_ : String
deriving DecidableEq

/-- One iteration of the notebook's article-building loop (the cell that fills
`texts`): the body first appends `w.lemma_` to the running `article` when
`w.text != '\n' and not w.is_stop and not w.is_punct and not w.like_num`,
then, when `w.text == '\n'`, pushes the article onto `texts` and resets it. -/
def textsStep (acc : List (List String) × List String) (w : Token) :
    List (List String) × List String :=
  let article :=
    if w.text ≠ "\n" ∧ w.is_stop = false ∧ w.is_punct = false ∧ w.like_num = false then
      acc.2 ++ [w.lemma_]
    else acc.2
  if w.text = "\n" then (acc.1 ++ [article], []) else (acc.1, article)

/-- The notebook's `texts, article = [], []` loop over the annotated document:
fold the loop body over the token stream. Returns the final `(texts, article)`
pair; the notebook keeps using only `texts`. -/
def buildTexts (doc : List Token) : List (List String) × List String :=
  doc.foldl textsStep ([], [])

/-- C3: a token's lemma is appended to the current article exactly when its
text is not a newline and it is neither a stop word, nor punctuation, nor
number-like; a newline token closes the current article (without appending
anything for the newline itself), pushes it onto the list of documents, and
starts a new empty article. -/
theorem C3_token_filter_and_article_split (ts : List (List String))
    (art : List String) (w : Token) :
    textsStep (ts, art) w =
      if w.text = "\n" then (ts ++ [art], [])
      else
        (ts,
          if w.is_stop = false ∧ w.is_punct = false ∧ w.like_num = false then
            art ++ [w.lemma_]
          else art) := by
  by_cases h : w.text = "\n" <;> simp [textsStep, h]

lemma textsStep_fst_of_ne (s : List (List String) × List String) (w : Token)
    (h : w.text ≠ "\n") : (textsStep s w).1 = s.1 := by
  simp [textsStep, h]

lemma foldl_textsStep_fst (suf : List Token)
    (h : ∀ w ∈ suf, w.text ≠ "\n") :
    ∀ s : List (List String) × List String, (suf.foldl textsStep s).1 = s.1 := by
  induction suf with
  | nil => intro s; rfl
  | cons w rest ih =>
    intro s
    have hw : w.text ≠ "\n" := h w (List.mem_cons_self _ _)
    have hrest : ∀ w ∈ rest, w.text ≠ "\n" := fun v hv => h v (List.mem_cons_of_mem _ hv)
    rw [List.foldl_cons, ih hrest, textsStep_fst_of_ne _ _ hw]

/-- C10: tokens after the last newline are discarded: appending a
newline-free suffix to the token stream leaves the produced list of documents
unchanged, and a corpus with no newline tokens yields no documents at all,
no matter how many tokens pass the filter. -/
theorem C10_trailing_tokens_discarded (pre suf : List Token)
    (h : ∀ w ∈ suf, w.text ≠ "\n") :
    (buildTexts (pre ++ suf)).1 = (buildTexts pre).1 ∧ (buildTexts suf).1 = [] := by
  constructor
  · rw [buildTexts, List.foldl_append]
    exact foldl_textsStep_fst suf h _
  · exact foldl_textsStep_fst suf h ([], [])

/-- Witness for C10 at a concrete corpus: one article closed by a newline,
followed by a trailing token that passes the filter but is discarded. -/
theorem C10_witness :
    (buildTexts ([⟨"\n", false, false, false, "nl"⟩] ++
        [⟨"cat", false, false, false, "cat"⟩])).1 =
      (buildTexts [⟨"\n", false, false, false, "nl"⟩]).1 ∧
    (buildTexts [⟨"cat", false, false, false, "cat"⟩]).1 = [] :=
  C10_trailing_tokens_discarded [⟨"\n", false, false, false, "nl"⟩]
    [⟨"cat", false, false, false, "cat"⟩]
    (by intro w hw; simp at hw; subst hw; decide)

/-! ### Character alphabet of the generation demo -/

/-- `chars = sorted(list(set(data)))`: the sorted list of distinct characters
of the corpus. `List.dedup` plays the role of `set(...)`, insertion sort that
of `sorted(...)` (character order is codepoint order, as in Python). -/
def chars (data : List Char) : List Char :=
  List.insertionSort (· ≤ ·) data.dedup

/-- `char_to_int = dict((c, i) for i, c in enumerate(chars))`: each character
maps to its index in `chars`. -/
def char_to_int (data : List Char) (c : Char) : Nat :=
  (chars data).indexOf c

/-- `ix_to_char = dict((i, c) for i, c in enumerate(chars))`: each index maps
to the character at that position of `chars`. -/
def ix_to_char (data : List Char) (i : Nat) : Char :=
  (chars data).getD i default

/-- `vocab_size = len(chars)`. -/
def vocab_size (data : List Char) : Nat :=
  (chars data).length

lemma chars_nodup (data : List Char) : (chars data).Nodup :=
  ((List.perm_insertionSort (· ≤ ·) data.dedup).nodup_iff).mpr data.nodup_dedup

/-- C8: `char_to_int` and `ix_to_char` are mutually inverse bijections
between the corpus alphabet and `0 .. vocab_size - 1`, with ids assigned in
sorted character order. -/
theorem C8_alphabet_maps_inverse (data : List Char) :
    (∀ c ∈ chars data, ix_to_char data (char_to_int data c) = c) ∧
    (∀ i, i < vocab_size data → char_to_int data (ix_to_char data i) = i) ∧
    ((chars data).map (char_to_int data) = List.range (vocab_size data)) ∧
    List.Sorted (· ≤ ·) (chars data) ∧ (chars data).Nodup := by
  have hnd := chars_nodup data
  have inv2 : ∀ i, i < vocab_size data → char_to_int data (ix_to_char data i) = i := by
    intro i hi
    have hi' : i < (chars data).length := hi
    rw [ix_to_char, List.getD_eq_getElem _ _ hi', char_to_int,
      List.indexOf_getElem hnd i hi']
  refine ⟨?_, inv2, ?_, ?_, hnd⟩
  · intro c hc
    have hlt : (chars data).indexOf c < (chars data).length :=
      List.indexOf_lt_length.mpr hc
    rw [char_to_int, ix_to_char, List.getD_eq_getElem _ _ hlt,
      List.getElem_indexOf hlt]
  · refine List.ext_getElem (by simp [vocab_size]) ?_
    intro i h1 h2
    have hi : i < (chars data).length := by simpa using h1
    simp only [List.getElem_map, List.getElem_range]
    rw [char_to_int, List.indexOf_getElem hnd i hi]
  · exact List.sorted_insertionSort (· ≤ ·) data.dedup

/-- Witness for C8 at the corpus "ba": alphabet `['a','b']`. -/
theorem C8_witness :
    ix_to_char ['b', 'a'] (char_to_int ['b', 'a'] 'a') = 'a' ∧
    char_to_int ['b', 'a'] (ix_to_char ['b', 'a'] 1) = 1 :=
  ⟨(C8_alphabet_maps_inverse ['b', 'a']).1 'a' (by decide),
   (C8_alphabet_maps_inverse ['b', 'a']).2.1 1 (by decide)⟩

/-! ### Sliding-window training examples -/

/-- `SEQ_LENGTH = 100`. -/
def SEQ_LENGTH : Nat := 100

/-- The loop `for i in range(0, len(data) - SEQ_LENGTH, 1)` appending
`[char_to_int[char] for char in data[i : i + SEQ_LENGTH]]` for each `i`. -/
def list_X (data : List Char) : List (List Nat) :=
  (List.range (data.length - SEQ_LENGTH)).map
    (fun i => ((data.drop i).take SEQ_LENGTH).map (char_to_int data))

/-- The same loop appending `char_to_int[data[i + SEQ_LENGTH]]` for each `i`. -/
def list_Y (data : List Char) : List Nat :=
  (List.range (data.length - SEQ_LENGTH)).map
    (fun i => char_to_int data (data.getD (i + SEQ_LENGTH) default))

/-- `n_patterns = len(list_X)`. -/
def n_patterns (data : List Char) : Nat := (list_X data).length

lemma getD_map_range {β : Type} (n i : Nat) (f : Nat → β) (d : β) (h : i < n) :
    ((List.range n).map f).getD i d = f i := by
  rw [List.getD_eq_getElem _ _ (by simpa using h)]
  simp

/-- C2: for a corpus of length `L > SEQ_LENGTH`, exactly `L - SEQ_LENGTH`
examples are built; the `i`-th example lists the integer ids of the characters
at positions `i` through `i + SEQ_LENGTH - 1`, and its label is the id of the
character at position `i + SEQ_LENGTH`. -/
theorem C2_sliding_window_examples (data : List Char)
    (h : SEQ_LENGTH < data.length) :
    (list_X data).length = data.length - SEQ_LENGTH ∧
    (list_Y data).length = data.length - SEQ_LENGTH ∧
    ∀ i, i < data.length - SEQ_LENGTH →
      ((list_X data).getD i []).length = SEQ_LENGTH ∧
      (∀ j, j < SEQ_LENGTH →
        ((list_X data).getD i []).getD j 0 =
          char_to_int data (data.getD (i + j) default)) ∧
      (list_Y data).getD i 0 =
        char_to_int data (data.getD (i + SEQ_LENGTH) default) := by
  refine ⟨by simp [list_X], by simp [list_Y], ?_⟩
  intro i hi
  have hiS : i + SEQ_LENGTH < data.length := by omega
  have hx : (list_X data).getD i [] =
      ((data.drop i).take SEQ_LENGTH).map (char_to_int data) := by
    rw [list_X, getD_map_range _ _ _ _ hi]
  have hlen : ((data.drop i).take SEQ_LENGTH).length = SEQ_LENGTH := by
    simp only [List.length_take, List.length_drop]
    omega
  refine ⟨by rw [hx]; simpa using hlen, ?_, ?_⟩
  · intro j hj
    have hj' : j < (((data.drop i).take SEQ_LENGTH).map (char_to_int data)).length := by
      simp only [List.length_map, hlen]; exact hj
    rw [hx, List.getD_eq_getElem _ _ hj', List.getElem_map,
      List.getElem_take, List.getElem_drop,
      List.getD_eq_getElem _ _ (by omega : i + j < data.length)]
  · rw [list_Y, getD_map_range _ _ _ _ hi]

/-- Witness for C2 at a concrete 101-character corpus: 1 example whose label
is the id of the final character. -/
theorem C2_witness :
    (list_X (List.replicate 100 'a' ++ ['b'])).length = 1 ∧
    (list_Y (List.replicate 100 'a' ++ ['b'])).getD 0 0 =
      char_to_int (List.replicate 100 'a' ++ ['b'])
        ((List.replicate 100 'a' ++ ['b']).getD (0 + SEQ_LENGTH) default) :=
  ⟨(C2_sliding_window_examples (List.replicate 100 'a' ++ ['b'])
      (by simp [SEQ_LENGTH])).1.trans (by simp [SEQ_LENGTH]),
   ((C2_sliding_window_examples (List.replicate 100 'a' ++ ['b'])
      (by simp [SEQ_LENGTH])).2.2 0 (by simp [SEQ_LENGTH])).2.2⟩

/-! ### The prediction loop of `generate_text` -/

/-- One iteration of the 250-step loop in `generate_text`. The model call
(`np.reshape`, scaling by `vocab_size`, `model.predict`, `np.argmax`) is
abstracted as `next : List Nat → Nat`, the function from the current window to
the predicted index. The body appends the prediction to `output`, appends it
to `pattern`, then drops `pattern`'s first element
(`pattern = pattern[1 : len(pattern)]`). -/
def genStep (next : List Nat → Nat) (s : List Nat × List Nat) :
    List Nat × List Nat :=
  let index := next s.2
  (s.1 ++ [index], (s.2 ++ [index]).drop 1)

/-- The loop state after `k` iterations, starting from `output = []` and the
seed window `p0` (`pattern = np.ravel(X[start]).tolist()`). -/
def genIter (next : List Nat → Nat) (p0 : List Nat) : Nat → List Nat × List Nat
  | 0 => ([], p0)
  | k + 1 => genStep next (genIter next p0 k)

/-- The `output` list printed after the full 250-iteration loop. -/
def generate_textOutput (next : List Nat → Nat) (p0 : List Nat) : List Nat :=
  (genIter next p0 250).1

lemma genIter_snd_length (next : List Nat → Nat) (p0 : List Nat) :
    ∀ k, (genIter next p0 k).2.length = p0.length := by
  intro k
  induction k with
  | zero => rfl
  | succ k ih =>
    simp only [genIter, genStep, List.length_drop, List.length_append,
      List.length_cons, List.length_nil, ih]
    omega

lemma genIter_fst_length (next : List Nat → Nat) (p0 : List Nat) :
    ∀ k, (genIter next p0 k).1.length = k := by
  intro k
  induction k with
  | zero => rfl
  | succ k ih =>
    simp only [genIter, genStep, List.length_append, List.length_cons,
      List.length_nil, ih]

/-- C4: throughout the 250 iterations the sampling window keeps the constant
length of the seed sequence; each iteration appends exactly one predicted
index (the abstracted argmax of the model output on the current window) to the
output and to the window while removing the window's oldest element; the final
output holds 250 predictions. -/
theorem C4_window_invariant (next : List Nat → Nat) (p0 : List Nat)
    (hne : p0 ≠ []) :
    (∀ k, k ≤ 250 →
      (genIter next p0 k).2.length = p0.length ∧
      genIter next p0 (k + 1) =
        ((genIter next p0 k).1 ++ [next (genIter next p0 k).2],
         (genIter next p0 k).2.drop 1 ++ [next (genIter next p0 k).2])) ∧
    (generate_textOutput next p0).length = 250 := by
  refine ⟨?_, genIter_fst_length next p0 250⟩
  intro k _
  refine ⟨genIter_snd_length next p0 k, ?_⟩
  have hlen : 1 ≤ (genIter next p0 k).2.length := by
    rw [genIter_snd_length next p0 k]
    exact Nat.one_le_iff_ne_zero.mpr (fun h0 => hne (List.length_eq_zero.mp h0))
  show genStep next (genIter next p0 k) = _
  rw [genStep, List.drop_append_of_le_length hlen]

/-- Witness for C4 with a two-element seed and a constant-zero model. -/
theorem C4_witness :
    (genIter (fun _ => 0) [3, 4] 250).2.length = 2 ∧
    (generate_textOutput (fun _ => 0) [3, 4]).length = 250 :=
  ⟨((C4_window_invariant (fun _ => 0) [3, 4] (by decide)).1 250 (le_refl 250)).1,
   (C4_window_invariant (fun _ => 0) [3, 4] (by decide)).2⟩

/-! ### Error propagation -/

/-- The argument of `warnings.filterwarnings('ignore')` in the setup cell:
warnings are suppressed wholesale at startup. -/
def warningsFilterArg : String := "ignore"

/-- `text = open(lee_train_file).read()`: reading the corpus through a
file system modelled as a partial map from paths to contents. A missing file
raises `FileNotFoundError`; the cell has no `try`/`except`, so the embedding
has no recovery branch and the failure is returned as-is to the caller. -/
def loadCorpus (fs : String → Option String) (path : String) :
    Except String String :=
  match fs path with
  | some contents => Except.ok contents
  | none => Except.error ("FileNotFoundError: " ++ path)

/-- `generate_text` starts with `model.load_weights(filename)`; a missing
weights file raises, and no handler exists, so the whole call fails. When the
weights load, the function runs the (abstracted) prediction loop. -/
def generate_textChecked {W : Type} (weightsFs : String → Option W)
    (filename : String) (runModel : W → List Nat) :
    Except String (List Nat) :=
  match weightsFs filename with
  | some w => Except.ok (runModel w)
  | none => Except.error ("OSError: " ++ filename)

/-- C5: warnings are suppressed globally at startup, and the fallible steps
recover from nothing: each succeeds exactly when its underlying resource
exists, and when the resource is missing the step returns the error itself —
there is no retry or fallback producing a successful result. -/
theorem C5_no_error_recovery {W : Type} (fs : String → Option String)
    (weightsFs : String → Option W) (path filename : String)
    (runModel : W → List Nat) :
    warningsFilterArg = "ignore" ∧
    (loadCorpus fs path).isOk = (fs path).isSome ∧
    (fs path = none →
      loadCorpus fs path = Except.error ("FileNotFoundError: " ++ path)) ∧
    (generate_textChecked weightsFs filename runModel).isOk =
      (weightsFs filename).isSome ∧
    (weightsFs filename = none →
      generate_textChecked weightsFs filename runModel =
        Except.error ("OSError: " ++ filename)) := by
  refine ⟨rfl, ?_, ?_, ?_, ?_⟩
  · cases h : fs path <;> simp [loadCorpus, h, Except.isOk, Except.toBool]
  · intro h; simp [loadCorpus, h]
  · cases h : weightsFs filename <;>
      simp [generate_textChecked, h, Except.isOk, Except.toBool]
  · intro h; simp [generate_textChecked, h]

/-- Witness for C5 on an empty file system: both steps fail with the
propagated error. -/
theorem C5_witness :
    loadCorpus (fun _ => none) "lee_background.cor" =
      Except.error ("FileNotFoundError: " ++ "lee_background.cor") ∧
    generate_textChecked (W := Unit) (fun _ => none)
        "Weights/weights-improvement-01-4.3050.hdf5" (fun _ => []) =
      Except.error ("OSError: " ++ "Weights/weights-improvement-01-4.3050.hdf5") :=
  ⟨(C5_no_error_recovery (W := Unit) (fun _ => none) (fun _ => none)
      "lee_background.cor" "Weights/weights-improvement-01-4.3050.hdf5"
      (fun _ => [])).2.2.1 rfl,
   (C5_no_error_recovery (W := Unit) (fun _ => none) (fun _ => none)
      "lee_background.cor" "Weights/weights-improvement-01-4.3050.hdf5"
      (fun _ => [])).2.2.2.2 rfl⟩

/-! ### Classification demo: fit/transform provenance

The scikit-learn estimators are third-party; what the notebook itself decides
is which data each estimator is fitted on and which data it is applied to.
`Feat` records exactly that provenance: a fitted transformer's learned state
is a function of the data passed to `fit`, so a feature matrix is represented
by the transform kind, the data its parameters were fitted on, and the data it
was applied to. -/

/-- Symbolic feature matrices of the classification demo. -/
inductive Feat where
  | raw (docs : List String)
  | tfidf (fitted : Feat) (applied : Feat)
  | lsa (fitted : Feat) (applied : Feat)
deriving DecidableEq

/-- `X_train = vectorizer.fit_transform(data_train.data)`: the TF-IDF
vectorizer is fitted on the training collection and applied to it. -/
def X_train_tfidf (trainDocs : List String) : Feat :=
  Feat.tfidf (Feat.raw trainDocs) (Feat.raw trainDocs)

/-- `X_train = lsa.fit_transform(X_train)`: the SVD-plus-normalizer pipeline
is fitted on the training TF-IDF features and applied to them. -/
def X_train (trainDocs : List String) : Feat :=
  Feat.lsa (X_train_tfidf trainDocs) (X_train_tfidf trainDocs)

/-- `X_test = vectorizer.transform(data_test.data)`: the vectorizer object
fitted in the training cell is applied, unrefitted, to the test collection. -/
def X_test_tfidf (trainDocs testDocs : List String) : Feat :=
  Feat.tfidf (Feat.raw trainDocs) (Feat.raw testDocs)

/-- `X_test = lsa.fit_transform(X_test)`: the notebook calls `fit_transform`,
so the pipeline applied to the test features is fitted on those same test
features. -/
def X_test (trainDocs testDocs : List String) : Feat :=
  Feat.lsa (X_test_tfidf trainDocs testDocs) (X_test_tfidf trainDocs testDocs)

/-- What the claim describes: the dimensionality-reduction transform fitted on
the training features applied (not refitted) to the test features. -/
def X_test_claimed (trainDocs testDocs : List String) : Feat :=
  Feat.lsa (X_train_tfidf trainDocs) (X_test_tfidf trainDocs testDocs)

/-- The data a `Feat`'s outermost LSA stage was fitted on, if any. -/
def lsaFitData : Feat → Option Feat
  | Feat.lsa fitted _ => some fitted
  | _ => none

/-- The data a `Feat`'s outermost TF-IDF stage was fitted on, if any. -/
def tfidfFitData : Feat → Option Feat
  | Feat.tfidf fitted _ => some fitted
  | Feat.lsa _ applied => tfidfFitData applied
  | _ => none

/-- Counterexample to C1 at a concrete one-document split: the features the
classifiers predict on are not the claimed ones, because the LSA stage is
refitted on the test features instead of reusing the training fit. -/
theorem C1_counterexample :
    X_test ["alpha"] ["beta"] ≠ X_test_claimed ["alpha"] ["beta"] := by
  decide

/-- C1 as amended: the test documents are indeed vectorized with the TF-IDF
transform fitted on the training collection, but the dimensionality-reduction
pipeline applied to the test features is refitted on those test features
(`lsa.fit_transform(X_test)`), not the one fitted on the training features:
whenever train and test collections differ, the LSA fit data of the test
features differs from the training features. -/
theorem C1_tfidf_reused_but_lsa_refit (trainDocs testDocs : List String)
    (hne : trainDocs ≠ testDocs) :
    tfidfFitData (X_test trainDocs testDocs) = some (Feat.raw trainDocs) ∧
    lsaFitData (X_test trainDocs testDocs) =
      some (X_test_tfidf trainDocs testDocs) ∧
    lsaFitData (X_test trainDocs testDocs) ≠ some (X_train_tfidf trainDocs) := by
  refine ⟨rfl, rfl, ?_⟩
  intro h
  apply hne
  have : X_test_tfidf trainDocs testDocs = X_train_tfidf trainDocs :=
    Option.some.inj (by simpa [lsaFitData, X_test] using h)
  have happ : Feat.raw testDocs = Feat.raw trainDocs := by
    have := congrArg (fun f => match f with
      | Feat.tfidf _ applied => applied
      | f => f) this
    simpa [X_test_tfidf, X_train_tfidf] using this
  cases happ
  rfl

/-- Witness for the amended C1 at a concrete split. -/
theorem C1_witness :
    tfidfFitData (X_test ["alpha"] ["beta"]) = some (Feat.raw ["alpha"]) ∧
    lsaFitData (X_test ["alpha"] ["beta"]) =
      some (X_test_tfidf ["alpha"] ["beta"]) ∧
    lsaFitData (X_test ["alpha"] ["beta"]) ≠ some (X_train_tfidf ["alpha"]) :=
  C1_tfidf_reused_but_lsa_refit ["alpha"] ["beta"] (by decide)

/-! ### `create_model`: the Keras sequential model builder -/

/-- A layer added to the sequential model: an LSTM (with its hidden size, the
`input_shape` passed to the first layer, and its `return_sequences` flag), a
`Dropout(drop)`, or the final `Dense(n_out, activation)`. -/
inductive Layer where
  | lstm (hiddenDim : Nat) (inputShape : Option (Nat × Nat)) (returnSequences : Bool)
  | dropout (rate : ℚ)
  | dense (units : Nat) (activation : String)
deriving DecidableEq

def isLSTM : Layer → Bool
  | Layer.lstm _ _ _ => true
  | _ => false

def isDropout : Layer → Bool
  | Layer.dropout _ => true
  | _ => false

def isDense : Layer → Bool
  | Layer.dense _ _ => true
  | _ => false

/-- `create_model(n_layers, input_shape, hidden_dim, n_out, **kwargs)` of the
notebook, as the list of layers added to the `Sequential` model, in order.
The keyword arguments `drop_rate` (default 0.2), `activation`
(default `'softmax'`) and `mode` (default `'train'`) are explicit parameters.
For `n_layers == 1` a single LSTM is added (with Dropout after it in train
mode); otherwise a first LSTM with `return_sequences=True`, the
`range(n_layers - 2)` loop of further such LSTMs (each followed by Dropout in
train mode), and a final LSTM without `return_sequences`. A Dense output
layer closes the model in both branches. -/
def create_model (n_layers : Nat) (input_shape : Nat × Nat × Nat)
    (hidden_dim : Nat) (n_out : Nat) (drop : ℚ) (activ : String)
    (mode : String) : List Layer :=
  let inShape : Option (Nat × Nat) := some (input_shape.2.1, input_shape.2.2)
  let dropIf : List Layer := if mode = "train" then [Layer.dropout drop] else []
  if n_layers = 1 then
    ([Layer.lstm hidden_dim inShape false] ++ dropIf) ++ [Layer.dense n_out activ]
  else
    let m := [Layer.lstm hidden_dim inShape true] ++ dropIf
    let m := (List.range (n_layers - 2)).foldl
      (fun acc _ => acc ++ ([Layer.lstm hidden_dim none true] ++ dropIf)) m
    (m ++ [Layer.lstm hidden_dim none false]) ++ [Layer.dense n_out activ]

lemma foldl_append_const {β : Type} (b : List β) :
    ∀ (k : Nat) (a : List β),
      (List.range k).foldl (fun acc _ => acc ++ b) a =
        a ++ (List.replicate k b).flatten := by
  intro k
  induction k with
  | zero => intro a; simp
  | succ k ih =>
    intro a
    rw [List.range_succ, List.foldl_append, ih a, List.replicate_succ' k b]
    simp

/-- Closed form of `create_model` for `2 ≤ n_layers`. -/
lemma create_model_eq_of_two_le (n : Nat) (hn : 2 ≤ n)
    (input_shape : Nat × Nat × Nat) (hd nout : Nat) (drop : ℚ)
    (activ mode : String) :
    create_model n input_shape hd nout drop activ mode =
      ([Layer.lstm hd (some (input_shape.2.1, input_shape.2.2)) true] ++
          (if mode = "train" then [Layer.dropout drop] else [])) ++
        (List.replicate (n - 2)
            ([Layer.lstm hd none true] ++
              (if mode = "train" then [Layer.dropout drop] else []))).flatten ++
        [Layer.lstm hd none false] ++ [Layer.dense nout activ] := by
  have hne : ¬n = 1 := by omega
  rw [create_model]
  simp only [hne, if_false, foldl_append_const]

lemma countP_flatten_replicate {β : Type} (p : β → Bool) (k : Nat) (b : List β) :
    ((List.replicate k b).flatten.countP p) = k * b.countP p := by
  induction k with
  | zero => simp
  | succ k ih =>
    rw [List.replicate_succ, List.flatten_cons, List.countP_append, ih,
      Nat.succ_mul]
    omega

lemma countP_replicate_eq {β : Type} (p : β → Bool) (k : Nat) (x : β) :
    (List.replicate k x).countP p = if p x then k else 0 := by
  induction k with
  | zero => simp
  | succ k ih =>
    rw [List.replicate_succ, List.countP_cons, ih]
    by_cases hp : p x <;> simp [hp]

/-- Scans a layer list checking that every LSTM is immediately followed by a
Dropout or by a Dense layer. -/
def lstmNextOk : List Layer → Bool
  | Layer.lstm _ _ _ :: next :: rest =>
    (isDropout next || isDense next) && lstmNextOk (next :: rest)
  | _ :: rest => lstmNextOk rest
  | [] => true

/-- Counts the positions at which an LSTM is immediately followed by a Dense
layer. -/
def lstmDenseAdjCount : List Layer → Nat
  | Layer.lstm _ _ _ :: next :: rest =>
    (if isDense next then 1 else 0) + lstmDenseAdjCount (next :: rest)
  | _ :: rest => lstmDenseAdjCount rest
  | [] => 0

lemma lstmNextOk_block (a : Nat) (sh : Option (Nat × Nat)) (c : Bool) (r : ℚ)
    (rest : List Layer) :
    lstmNextOk (Layer.lstm a sh c :: Layer.dropout r :: rest) =
      lstmNextOk (Layer.dropout r :: rest) := by
  simp [lstmNextOk, isDropout]

lemma lstmNextOk_dropout (r : ℚ) (rest : List Layer) :
    lstmNextOk (Layer.dropout r :: rest) = lstmNextOk rest := rfl

lemma lstmDenseAdjCount_block (a : Nat) (sh : Option (Nat × Nat)) (c : Bool)
    (r : ℚ) (rest : List Layer) :
    lstmDenseAdjCount (Layer.lstm a sh c :: Layer.dropout r :: rest) =
      lstmDenseAdjCount (Layer.dropout r :: rest) := by
  simp [lstmDenseAdjCount, isDense]

lemma lstmDenseAdjCount_dropout (r : ℚ) (rest : List Layer) :
    lstmDenseAdjCount (Layer.dropout r :: rest) = lstmDenseAdjCount rest := rfl

lemma lstmNextOk_replicate_blocks (hd : Nat) (drop : ℚ) :
    ∀ (k : Nat) (rest : List Layer),
      lstmNextOk
        ((List.replicate k [Layer.lstm hd none true, Layer.dropout drop]).flatten
          ++ rest) = lstmNextOk rest := by
  intro k
  induction k with
  | zero => intro rest; simp
  | succ k ih =>
    intro rest
    rw [List.replicate_succ, List.flatten_cons]
    simp only [List.append_assoc, List.cons_append, List.nil_append]
    rw [lstmNextOk_block, lstmNextOk_dropout, ih rest]

lemma lstmDenseAdjCount_replicate_blocks (hd : Nat) (drop : ℚ) :
    ∀ (k : Nat) (rest : List Layer),
      lstmDenseAdjCount
        ((List.replicate k [Layer.lstm hd none true, Layer.dropout drop]).flatten
          ++ rest) = lstmDenseAdjCount rest := by
  intro k
  induction k with
  | zero => intro rest; simp
  | succ k ih =>
    intro rest
    rw [List.replicate_succ, List.flatten_cons]
    simp only [List.append_assoc, List.cons_append, List.nil_append]
    rw [lstmDenseAdjCount_block, lstmDenseAdjCount_dropout, ih rest]

/-- C9: for `n_layers ≥ 1`, `create_model` returns exactly `n_layers` LSTM
layers followed by a single Dense output layer with `n_out` units and the
requested activation (the Dense layer is last); in `'train'` mode a Dropout
follows every LSTM except the final LSTM of a multi-layer model (every LSTM
is followed by Dropout or by the Dense layer, and only one LSTM — none in the
single-layer case — is followed directly by Dense); in any other mode no
Dropout layer is added. -/
theorem C9_model_layer_structure (n : Nat) (input_shape : Nat × Nat × Nat)
    (hd nout : Nat) (drop : ℚ) (activ mode : String) (hn : 1 ≤ n) :
    (create_model n input_shape hd nout drop activ mode).countP isLSTM = n ∧
    (create_model n input_shape hd nout drop activ mode).countP isDense = 1 ∧
    (create_model n input_shape hd nout drop activ mode).getLast? =
      some (Layer.dense nout activ) ∧
    (mode = "train" →
      (create_model n input_shape hd nout drop activ mode).countP isDropout =
        (if n = 1 then 1 else n - 1) ∧
      lstmNextOk (create_model n input_shape hd nout drop activ mode) = true ∧
      lstmDenseAdjCount (create_model n input_shape hd nout drop activ mode) =
        (if n = 1 then 0 else 1)) ∧
    (mode ≠ "train" →
      (create_model n input_shape hd nout drop activ mode).countP isDropout = 0) := by
  by_cases h1 : n = 1
  · subst h1
    by_cases hm : mode = "train" <;>
      simp [create_model, hm, List.countP_append, List.countP_cons, isLSTM,
        isDense, isDropout, lstmNextOk, lstmDenseAdjCount]
  · have h2 : 2 ≤ n := by omega
    rw [create_model_eq_of_two_le n h2]
    refine ⟨?_, ?_, ?_, ?_, ?_⟩
    · by_cases hm : mode = "train" <;>
        · simp [hm, List.countP_append, List.countP_cons,
            countP_flatten_replicate, countP_replicate_eq, isLSTM, isDropout,
            isDense]
          omega
    · by_cases hm : mode = "train" <;>
        simp [hm, List.countP_append, List.countP_cons,
          countP_flatten_replicate, countP_replicate_eq, isLSTM, isDropout,
          isDense]
    · exact List.getLast?_concat _
    · intro hm
      refine ⟨?_, ?_, ?_⟩
      · simp [hm, List.countP_append, List.countP_cons,
          countP_flatten_replicate, isLSTM, isDropout, isDense, h1]
        omega
      · simp only [hm, ite_true, List.append_assoc, List.cons_append,
          List.nil_append]
        rw [lstmNextOk_block, lstmNextOk_dropout, lstmNextOk_replicate_blocks]
        simp [lstmNextOk, isDense]
      · simp only [hm, ite_true, List.append_assoc, List.cons_append,
          List.nil_append]
        rw [lstmDenseAdjCount_block, lstmDenseAdjCount_dropout,
          lstmDenseAdjCount_replicate_blocks]
        simp [lstmDenseAdjCount, isDense, h1]
    · intro hm
      simp [hm, List.countP_append, List.countP_cons,
        countP_flatten_replicate, countP_replicate_eq, isLSTM, isDropout,
        isDense]

/-- Witness for C9 at `n_layers = 3` in train mode: 3 LSTMs, 2 Dropouts,
every LSTM followed by Dropout or Dense, Dense last. -/
theorem C9_witness :
    (create_model 3 (0, 100, 1) 256 47 0 "softmax" "train").countP isLSTM = 3 ∧
    (create_model 3 (0, 100, 1) 256 47 0 "softmax" "train").countP isDropout = 2 ∧
    lstmNextOk (create_model 3 (0, 100, 1) 256 47 0 "softmax" "train") = true ∧
    (create_model 3 (0, 100, 1) 256 47 0 "softmax" "train").getLast? =
      some (Layer.dense 47 "softmax") :=
  have h := C9_model_layer_structure 3 (0, 100, 1) 256 47 0 "softmax" "train"
    (by decide)
  ⟨h.1, ((h.2.2.2.1 rfl).1).trans (by norm_num), (h.2.2.2.1 rfl).2.1, h.2.2.1⟩

/-! ### Checkpoint files written by `train`, read back by `generate_text` -/

/-- Observable events of the generation demo: file writes, file reads, and
model predictions. -/
inductive Event where
  | write (path : String)
  | read (path : String)
  | predictEv
deriving DecidableEq

/-- Rendering of `{epoch:02d}`. -/
def pad2 (n : Nat) : String :=
  if n < 10 then "0" ++ toString n else toString n

/-- The checkpoint path template of `train`:
`"Weights/weights-improvement-{epoch:02d}-{loss:.4f}.hdf5"`, rendered at a
given epoch number and rendered loss value. -/
def checkpointPath (epoch : Nat) (lossStr : String) : String :=
  "Weights/" ++ ("weights-improvement-" ++ pad2 epoch ++ "-" ++ lossStr ++ ".hdf5")

/-- `ModelCheckpoint(filepath, monitor='loss', save_best_only=True,
mode='min')` as `train` configures it: at the end of an epoch the callback
saves iff the monitored loss is strictly below the best value seen so far
(no previous best means save). Modelled from the library's documented
`save_best_only` behaviour, which `train` wires in unchanged. -/
def saveNow {α : Type} [LinearOrder α] : Option α → α → Bool
  | none, _ => true
  | some b, l => decide (l < b)

/-- The per-epoch run of the checkpoint callback: `e` is the epoch number the
template renders, `best` the best loss so far, and each epoch's loss is
consumed from the list; on an improvement the checkpoint file is written and
`best` is updated. -/
def ckptGo {α : Type} [LinearOrder α] (render : α → String) :
    Nat → Option α → List α → List Event
  | _, _, [] => []
  | e, best, l :: rest =>
    if saveNow best l then
      Event.write (checkpointPath e (render l)) :: ckptGo render (e + 1) (some l) rest
    else
      ckptGo render (e + 1) best rest

/-- The file-system effect trace of `train`: `model.fit(X, Y, ...)` runs the
epochs (whose losses are abstracted as `losses`, rendered to `{loss:.4f}` by
`render`), the only callback is the checkpoint above, and nothing else in
`train` touches the file system. Keras renders `{epoch:02d}` from 1. -/
def trainEffects {α : Type} [LinearOrder α] (render : α → String)
    (losses : List α) : List Event :=
  ckptGo render 1 none losses

/-- `l` strictly improves on every previously seen loss. -/
def improves {α : Type} [LinearOrder α] (prev : List α) (l : α) : Bool :=
  prev.all (fun b => decide (l < b))

/-- The event trace of `generate_text`: its first statement is
`model.load_weights(filename)` (a read of the checkpoint file), and the body
then runs 250 `model.predict` calls; it writes nothing. -/
def generate_textEvents (filename : String) : List Event :=
  Event.read filename :: List.replicate 250 Event.predictEv

lemma filter_map_range_succ_cons {γ : Type} (n : Nat) (p : Nat → Bool)
    (F : Nat → γ) :
    ((0 :: (List.range n).map Nat.succ).filter p).map F =
      (if p 0 then [F 0] else []) ++
        ((List.range n).filter (fun i => p (i + 1))).map (fun i => F (i + 1)) := by
  by_cases hp : p 0 = true <;>
    · simp only [hp, List.filter_cons, if_true, if_false, List.map_cons,
        List.filter_map, List.map_map, Bool.false_eq_true, ite_true, ite_false]
      rfl

lemma ckptGo_eq {α : Type} [LinearOrder α] [Inhabited α] (render : α → String) :
    ∀ (rest : List α) (e : Nat) (b : Option α),
      ckptGo render e b rest =
        ((List.range rest.length).filter
            (fun i => saveNow b (rest.getD i default) &&
              improves (rest.take i) (rest.getD i default))).map
          (fun i => Event.write (checkpointPath (e + i) (render (rest.getD i default)))) := by
  intro rest
  induction rest with
  | nil => intro e b; simp [ckptGo]
  | cons l rest ih =>
    intro e b
    rw [show (l :: rest).length = rest.length + 1 from rfl,
      List.range_succ_eq_map, filter_map_range_succ_cons]
    simp only [List.getD_cons_zero, List.getD_cons_succ, List.take_zero,
      List.take_succ_cons]
    have himp0 : improves ([] : List α) l = true := rfl
    by_cases hs : saveNow b l = true
    · rw [ckptGo, if_pos hs,
        if_pos (show (saveNow b l && improves [] l) = true by simp [hs, himp0])]
      rw [List.singleton_append, Nat.add_zero]
      congr 1
      rw [ih (e + 1) (some l)]
      have hpred : ∀ i : Nat,
          (saveNow b (rest.getD i default) &&
            improves (l :: rest.take i) (rest.getD i default)) =
          (saveNow (some l) (rest.getD i default) &&
            improves (rest.take i) (rest.getD i default)) := by
        intro i
        simp only [improves, List.all_cons]
        cases hdec : decide (rest.getD i default < l) with
        | false =>
          simp only [saveNow, hdec, Bool.false_and, Bool.and_false]
        | true =>
          have hxl : rest.getD i default < l := of_decide_eq_true hdec
          cases b with
          | none => simp only [saveNow, hdec, Bool.true_and]
          | some b0 =>
            have hlb : l < b0 := of_decide_eq_true hs
            have hxb : rest.getD i default < b0 := lt_trans hxl hlb
            simp only [saveNow, hdec, decide_eq_true hxb, Bool.true_and]
      rw [List.filter_congr (fun i _ => hpred i)]
      apply List.map_congr_left
      intro i _
      have harith : e + 1 + i = e + (i + 1) := by omega
      rw [harith]
    · cases b with
      | none => simp [saveNow] at hs
      | some b0 =>
        have hbl : b0 ≤ l :=
          le_of_not_lt (fun hc => hs (decide_eq_true hc))
        rw [ckptGo, if_neg hs,
          if_neg (show ¬(saveNow (some b0) l && improves [] l) = true by
            simp only [himp0, Bool.and_true]; exact hs)]
        rw [List.nil_append, ih (e + 1) (some b0)]
        have hpred : ∀ i : Nat,
            (saveNow (some b0) (rest.getD i default) &&
              improves (l :: rest.take i) (rest.getD i default)) =
            (saveNow (some b0) (rest.getD i default) &&
              improves (rest.take i) (rest.getD i default)) := by
          intro i
          simp only [improves, List.all_cons]
          cases hdec : decide (rest.getD i default < b0) with
          | false =>
            simp only [saveNow, hdec, Bool.false_and]
          | true =>
            have hxb : rest.getD i default < b0 := of_decide_eq_true hdec
            have hxl : rest.getD i default < l := lt_of_lt_of_le hxb hbl
            simp only [saveNow, hdec, decide_eq_true hxl, Bool.true_and]
        rw [List.filter_congr (fun i _ => hpred i)]
        apply List.map_congr_left
        intro i _
        have harith : e + 1 + i = e + (i + 1) := by omega
        rw [harith]

/-- C7: every file-system effect of `train` is a write of a checkpoint file
under `Weights/`; a checkpoint is written at an epoch exactly when that
epoch's monitored loss strictly improves on every previous epoch's loss; and
`generate_text`'s event trace starts by reading the given checkpoint file,
writes nothing, and everything after the read is a model prediction. -/
theorem C7_checkpoint_writes_and_weight_read {α : Type} [LinearOrder α]
    [Inhabited α] (render : α → String) (losses : List α) (filename : String) :
    (∀ ev ∈ trainEffects render losses,
      ∃ rest, ev = Event.write ("Weights/" ++ rest)) ∧
    trainEffects render losses =
      ((List.range losses.length).filter
          (fun i => improves (losses.take i) (losses.getD i default))).map
        (fun i =>
          Event.write (checkpointPath (i + 1) (render (losses.getD i default)))) ∧
    (generate_textEvents filename).head? = some (Event.read filename) ∧
    (∀ p, Event.write p ∉ generate_textEvents filename) ∧
    (∀ ev ∈ (generate_textEvents filename).tail, ev = Event.predictEv) := by
  have hmain : trainEffects render losses =
      ((List.range losses.length).filter
          (fun i => improves (losses.take i) (losses.getD i default))).map
        (fun i =>
          Event.write (checkpointPath (i + 1) (render (losses.getD i default)))) := by
    rw [trainEffects, ckptGo_eq render losses 1 none]
    simp only [saveNow, Bool.true_and]
    apply List.map_congr_left
    intro i _
    have harith : 1 + i = i + 1 := by omega
    rw [harith]
  refine ⟨?_, hmain, rfl, ?_, ?_⟩
  · intro ev hev
    rw [hmain] at hev
    obtain ⟨i, _, hev⟩ := List.mem_map.mp hev
    exact ⟨"weights-improvement-" ++ pad2 (i + 1) ++ "-" ++
      render (losses.getD i default) ++ ".hdf5", hev.symm⟩
  · intro p hp
    rcases List.mem_cons.mp hp with hc | hc
    · exact Event.noConfusion hc
    · exact Event.noConfusion (List.eq_of_mem_replicate hc)
  · intro ev hev
    exact List.eq_of_mem_replicate hev

/-- Witness for C7 at losses 3, 2, 5: writes at epochs 1 and 2 only (epoch 3
does not improve), plus the weight read of `generate_text`. -/
theorem C7_witness :
    trainEffects toString [3, 2, 5] =
      [Event.write (checkpointPath 1 "3"), Event.write (checkpointPath 2 "2")] ∧
    (generate_textEvents "Weights/weights-improvement-01-4.3050.hdf5").head? =
      some (Event.read "Weights/weights-improvement-01-4.3050.hdf5") :=
  have h := C7_checkpoint_writes_and_weight_read (α := Nat) toString [3, 2, 5]
    "Weights/weights-improvement-01-4.3050.hdf5"
  ⟨h.2.1.trans (by decide), h.2.2.1⟩

/-! ### Independence of the three branches

Each branch is the composition of the cells it consists of, over the data the
branch's cells read and the library routines they call. The library routines
(spaCy's `nlp`, gensim's `Phrases`/`Dictionary`/`LdaModel`, the two
scikit-learn classifiers, the Keras model) are function parameters shared by
all runs. The corpus file is opened separately by the topic cells and by the
generation cells (`text = open(lee_train_file).read()` and
`data = open(lee_train_file).read()` are distinct reads), so each branch
receives its own copy of what its `open` call returned. -/

/-- Topic-modelling branch: annotate the corpus text (`doc = nlp(text)`),
build the per-article token lists, merge bigrams
(`texts = [bigram[line] for line in texts]`), and hand the result to the
gensim `Dictionary`/`doc2bow`/`LdaModel` stage, abstracted as `ldaF` since
every one of its inputs derives from the bigrammed `texts`. -/
def topicBranch {T : Type} (nlpF : String → List Token)
    (bigramF : List (List String) → List (List String))
    (ldaF : List (List String) → T) (text : String) : T :=
  ldaF (bigramF (buildTexts (nlpF text)).1)

/-- Classification branch: the TF-IDF/LSA feature pipeline of cells 40–41
followed by the two classifiers, abstracted as functions of the training
features, the training labels and the test features they predict on. -/
def classificationBranch {C : Type}
    (gnbF svmF : Feat → List Nat → Feat → C)
    (trainDocs testDocs : List String) (trainLabels : List Nat) : C × C :=
  (gnbF (X_train trainDocs) trainLabels (X_test trainDocs testDocs),
   svmF (X_train trainDocs) trainLabels (X_test trainDocs testDocs))

/-- Generation branch: build the alphabet and the sliding-window examples
from the corpus characters, seed the window from row `seedIdx` of `X`, and
run the 250-step prediction loop (`next` abstracting the trained model). -/
def generationBranch (next : List Nat → Nat) (seedIdx : Nat)
    (data : List Char) : List Nat :=
  generate_textOutput next ((list_X data).getD seedIdx [])

/-- The whole notebook as the triple of its three branches, each applied to
the data its own cells read. -/
def notebookRun {T C : Type} (nlpF : String → List Token)
    (bigramF : List (List String) → List (List String))
    (ldaF : List (List String) → T)
    (gnbF svmF : Feat → List Nat → Feat → C)
    (next : List Nat → Nat) (seedIdx : Nat)
    (leeText : String) (trainDocs testDocs : List String)
    (trainLabels : List Nat) (genData : List Char) :
    T × (C × C) × List Nat :=
  (topicBranch nlpF bigramF ldaF leeText,
   classificationBranch gnbF svmF trainDocs testDocs trainLabels,
   generationBranch next seedIdx genData)

/-- C6: the three branches share no program state. For any two runs that
differ only in the data consumed by one branch (all library routines held
fixed), the results of the other two branches are identical. -/
theorem C6_branches_share_no_state {T C : Type} (nlpF : String → List Token)
    (bigramF : List (List String) → List (List String))
    (ldaF : List (List String) → T)
    (gnbF svmF : Feat → List Nat → Feat → C)
    (next : List Nat → Nat) (seedIdx : Nat)
    (leeText leeText' : String) (trainDocs trainDocs' testDocs testDocs' : List String)
    (trainLabels trainLabels' : List Nat) (genData genData' : List Char) :
    ((notebookRun nlpF bigramF ldaF gnbF svmF next seedIdx
        leeText trainDocs testDocs trainLabels genData).2 =
      (notebookRun nlpF bigramF ldaF gnbF svmF next seedIdx
        leeText' trainDocs testDocs trainLabels genData).2) ∧
    ((notebookRun nlpF bigramF ldaF gnbF svmF next seedIdx
        leeText trainDocs testDocs trainLabels genData).1 =
      (notebookRun nlpF bigramF ldaF gnbF svmF next seedIdx
        leeText trainDocs' testDocs' trainLabels' genData).1 ∧
     (notebookRun nlpF bigramF ldaF gnbF svmF next seedIdx
        leeText trainDocs testDocs trainLabels genData).2.2 =
      (notebookRun nlpF bigramF ldaF gnbF svmF next seedIdx
        leeText trainDocs' testDocs' trainLabels' genData).2.2) ∧
    ((notebookRun nlpF bigramF ldaF gnbF svmF next seedIdx
        leeText trainDocs testDocs trainLabels genData).1 =
      (notebookRun nlpF bigramF ldaF gnbF svmF next seedIdx
        leeText trainDocs testDocs trainLabels genData').1 ∧
     (notebookRun nlpF bigramF ldaF gnbF svmF next seedIdx
        leeText trainDocs testDocs trainLabels genData).2.1 =
      (notebookRun nlpF bigramF ldaF gnbF svmF next seedIdx
        leeText trainDocs testDocs trainLabels genData').2.1) :=
  ⟨rfl, ⟨rfl, rfl⟩, ⟨rfl, rfl⟩⟩
